import Mathlib

/-!
Shallow embedding of the playlist-driven playout controller in
`hayai-playout-core/src/lib.rs` (the crate root; `lib.rs` declares no
submodules, so it is the compiled implementation).  Machine integers
(`u64` ids, `usize` indices) are modelled as `Nat`: the counter only
increments and indices are compared against list lengths, so no overflow
wrap is observable in the properties below.
-/

namespace HayaiPlayout

/-- `PlaylistItem` (lib.rs): an id plus a URI. -/
structure PlaylistItem where
  id : Nat
  uri : String
deriving Repr, DecidableEq, Inhabited

/-- `EncodingSettings` (lib.rs). -/
structure EncodingSettings where
  video_encoder : String
  audio_encoder : String
  bitrate_kbps : Nat
  speed_preset : String
  scale_enabled : Bool
  scale_width : Nat
  scale_height : Nat
deriving Repr, DecidableEq

/-- `EncodingSettings::default` (lib.rs). -/
def EncodingSettings.defaultSettings : EncodingSettings :=
  { video_encoder := "x264enc"
    audio_encoder := "faac"
    bitrate_kbps := 4000
    speed_preset := "ultrafast"
    scale_enabled := false
    scale_width := 1920
    scale_height := 1080 }

/-- The mutable state of one `Streamer` (lib.rs): the `pipeline` field is
abstracted to whether it is `Some`, the playlist vector, and the
currently-playing id.  The id counter is NOT part of this state: in the
source it is the process-global `static NEXT_ID: AtomicU64`, so it is
threaded explicitly through `add_item`. -/
structure StreamerState where
  pipelineRunning : Bool
  playlist : List PlaylistItem
  playingId : Option Nat
deriving Repr, DecidableEq

/-- `Streamer::new` (lib.rs): empty playlist, nothing playing, no pipeline. -/
def freshStreamer : StreamerState :=
  { pipelineRunning := false, playlist := [], playingId := none }

/-- `static NEXT_ID: AtomicU64 = AtomicU64::new(1)` — the initial value of the
process-global id counter. -/
def NEXT_ID_INIT : Nat := 1

/-- `Streamer::add_item` (lib.rs): `NEXT_ID.fetch_add(1)` returns the old
counter value as the new item's id, then the item is pushed at the end.
Returns the updated global counter together with the updated streamer. -/
def add_item (nextId : Nat) (s : StreamerState) (uri : String) :
    Nat × StreamerState :=
  (nextId + 1,
    { s with playlist := s.playlist ++ [{ id := nextId, uri := uri }] })

/-- `Streamer::remove_item` (lib.rs): `retain(|item| item.id != id)`. -/
def remove_item (s : StreamerState) (id : Nat) : StreamerState :=
  { s with playlist := s.playlist.filter (fun item => item.id != id) }

/-- The two error values `move_item` can produce (lib.rs: the
`anyhow!("Index out of bounds")` and `anyhow!("ID not found")` cases). -/
inductive MoveError where
  | invalidIndex
  | itemNotFound
deriving Repr, DecidableEq

/-- The list-level body of `Streamer::move_item` (lib.rs): first the bounds
check on `new_index`, then `iter().position(...)` on the id, then
`remove(old_index)` followed by `insert(new_index, item)`. -/
def move_item_list (l : List PlaylistItem) (id : Nat) (newIndex : Nat) :
    Except MoveError (List PlaylistItem) :=
  if newIndex ≥ l.length then
    .error .invalidIndex
  else
    match l.findIdx? (fun item => item.id == id) with
    | none => .error .itemNotFound
    | some oldIndex =>
        .ok (List.insertIdx newIndex (l.getD oldIndex default) (l.eraseIdx oldIndex))

/-- `Streamer::move_item` at the streamer level: on an error the early
`return` in the source leaves the playlist untouched. -/
def move_item (s : StreamerState) (id : Nat) (newIndex : Nat) :
    StreamerState × Option MoveError :=
  match move_item_list s.playlist id newIndex with
  | .ok l => ({ s with playlist := l }, none)
  | .error e => (s, some e)

/-- `Streamer::get_playlist_clone` (lib.rs). -/
def get_playlist_clone (s : StreamerState) : List PlaylistItem :=
  s.playlist

/-- `Streamer::get_currently_playing_id` (lib.rs). -/
def get_currently_playing_id (s : StreamerState) : Option Nat :=
  s.playingId

/-- `Streamer::stop` (lib.rs): `self.pipeline.take()`, a state change to Null
on the taken pipeline (a transition to the Null state is synchronous and
succeeds under the media engine's state-change contract), then
`*currently_playing_id = None` and `Ok(())`. -/
def stop (s : StreamerState) : Except String StreamerState :=
  .ok { s with pipelineRunning := false, playingId := none }

/-- The `next_index` computation inside `play_next` (lib.rs lines 258-263):
0 by default; when an id is playing and `position` finds it, the successor
index modulo the playlist length. -/
def nextIndex (playlist : List PlaylistItem) (playingId : Option Nat) : Nat :=
  match playingId with
  | none => 0
  | some id =>
    match playlist.findIdx? (fun item => item.id == id) with
    | none => 0
    | some currentIndex => (currentIndex + 1) % playlist.length

/-- The errors `play_next` can produce: the explicit empty-playlist error and
any error propagated from `switch_source` by the `?` operator. -/
inductive PlayError where
  | emptyPlaylist
  | switchFailed
deriving Repr, DecidableEq

/-- `play_next` (lib.rs lines 238-274) with the data-plane attachment
(`switch_source`) abstracted to a success predicate on the chosen item:
empty playlist errors out first; then the item at `next_index` is chosen;
`*playing_id = Some(new_id)` happens only after `switch_source` succeeded,
so on any failure the playing id (and everything else) is unchanged. -/
def play_next (attachOk : PlaylistItem → Bool) (s : StreamerState) :
    StreamerState × Option PlayError :=
  if s.playlist.isEmpty then
    (s, some .emptyPlaylist)
  else if attachOk (s.playlist.getD (nextIndex s.playlist s.playingId) default) then
    ({ s with playingId := some (s.playlist.getD (nextIndex s.playlist s.playingId) default).id }, none)
  else
    (s, some .switchFailed)

/-- Iterated `play_next` with an always-succeeding source attachment: the
round-robin advance sequence. -/
def advanceIter (s : StreamerState) : Nat → StreamerState
  | 0 => s
  | k + 1 => (play_next (fun _ => true) (advanceIter s k)).1

/-! ### Operation sequences over one streamer (for the playlist invariant) -/

/-- The playlist-mutating operations of the public surface. -/
inductive PlaylistOp where
  | add (uri : String)
  | remove (id : Nat)
  | move (id : Nat) (newIndex : Nat)
deriving Repr, DecidableEq

/-- One playlist operation applied to the global counter plus one streamer. -/
def applyOp (w : Nat × StreamerState) (op : PlaylistOp) : Nat × StreamerState :=
  match op with
  | .add uri => add_item w.1 w.2 uri
  | .remove id => (w.1, remove_item w.2 id)
  | .move id n => (w.1, (move_item w.2 id n).1)

/-- A run of playlist operations from a fresh process: counter at
`NEXT_ID_INIT`, one fresh streamer. -/
def runOps (ops : List PlaylistOp) : Nat × StreamerState :=
  ops.foldl applyOp (NEXT_ID_INIT, freshStreamer)

/-! ### Two streamers in one process (id-space sharing)

In lib.rs the id counter is `static NEXT_ID`, a process-global: every
`Streamer` in the process draws from the same counter. -/

/-- Two `Streamer` instances living in the same process, sharing the
process-global `NEXT_ID` counter. -/
structure TwoStreamers where
  nextId : Nat
  s1 : StreamerState
  s2 : StreamerState
deriving Repr, DecidableEq

/-- A fresh process holding two fresh `Streamer` instances. -/
def freshPair : TwoStreamers :=
  { nextId := NEXT_ID_INIT, s1 := freshStreamer, s2 := freshStreamer }

/-- `add_item` called on the first instance: the shared counter advances. -/
def addItemFst (w : TwoStreamers) (uri : String) : TwoStreamers :=
  let r := add_item w.nextId w.s1 uri
  { w with nextId := r.1, s1 := r.2 }

/-- `add_item` called on the second instance: the shared counter advances. -/
def addItemSnd (w : TwoStreamers) (uri : String) : TwoStreamers :=
  let r := add_item w.nextId w.s2 uri
  { w with nextId := r.1, s2 := r.2 }

/-- One interleaved `add_item` call: `true` selects the first instance. -/
def pairStep (w : TwoStreamers) (op : Bool × String) : TwoStreamers :=
  if op.1 then addItemFst w op.2 else addItemSnd w op.2

/-- An interleaving of `add_item` calls on the two instances, from a fresh
process. -/
def runPairAdds (ops : List (Bool × String)) : TwoStreamers :=
  ops.foldl pairStep freshPair

/-- All ids present across both instances' playlists. -/
def pairIds (w : TwoStreamers) : List Nat :=
  w.s1.playlist.map PlaylistItem.id ++ w.s2.playlist.map PlaylistItem.id

/-! ### The processing bin (graph builder) -/

/-- The properties `create_processing_bin` (lib.rs) sets on the `rtmpsink`
network-publish element: `location`, `sync`, `qos`, and — if assigned —
`max-lateness` (lib.rs assigns no `max-lateness` property). -/
structure SinkConfig where
  location : String
  sync : Bool
  qos : Bool
  maxLateness : Option Int
deriving Repr, DecidableEq

/-- A description of the bin `create_processing_bin` builds: the element
factories added, the video/audio link chains, and the publish-sink
configuration. -/
structure BinDescription where
  elements : List String
  videoChain : List String
  audioChain : List String
  sink : SinkConfig
deriving Repr, DecidableEq

/-- `create_processing_bin` (lib.rs lines 189-236): the sink is configured
with `location = rtmp_url`, `sync = false`, `qos = true` and no
`max-lateness`; `scale_enabled` inserts `videoscale` and `capsfilter`
between `videorate` and the video encoder. -/
def create_processing_bin (rtmpUrl : String) (settings : EncodingSettings) :
    BinDescription :=
  let sinkCfg : SinkConfig :=
    { location := rtmpUrl, sync := false, qos := true, maxLateness := none }
  if settings.scale_enabled then
    { elements := ["videoconvert", "videorate", "videoscale", "capsfilter",
        settings.video_encoder, "audioconvert", "audioresample",
        settings.audio_encoder, "flvmux", "rtmpsink"]
      videoChain := ["videoconvert", "videorate", "videoscale", "capsfilter",
        settings.video_encoder, "flvmux"]
      audioChain := ["audioconvert", "audioresample", settings.audio_encoder,
        "flvmux"]
      sink := sinkCfg }
  else
    { elements := ["videoconvert", "videorate", settings.video_encoder,
        "audioconvert", "audioresample", settings.audio_encoder, "flvmux",
        "rtmpsink"]
      videoChain := ["videoconvert", "videorate", settings.video_encoder,
        "flvmux"]
      audioChain := ["audioconvert", "audioresample", settings.audio_encoder,
        "flvmux"]
      sink := sinkCfg }

/-! ### The pad-added handler of `switch_source` -/

/-- The state of one `input-selector`: how many request pads were allocated
(each `request_pad_simple("sink_%u")` call allocates a fresh one), which of
them were successfully linked (in discovery order), and which one the
`active-pad` property currently points at. -/
structure SelectorState where
  requestedPads : Nat
  linkedPads : List Nat
  activePad : Option Nat
deriving Repr, DecidableEq

/-- A selector right after `start`: no request pads yet. -/
def freshSelector : SelectorState :=
  { requestedPads := 0, linkedPads := [], activePad := none }

/-- Rust `str::starts_with` on the stream-type name, spelled on the
character lists underlying the strings. -/
def strStartsWith (s pre : String) : Bool :=
  pre.data.isPrefixOf s.data

/-- One elementary stream discovered by `uridecodebin`, as the pad-added
handler sees it: the stream-type name of its caps structure, and whether
`pad.link(sink_pad)` succeeds. -/
structure PadEvent where
  mediaType : String
  linkOk : Bool
deriving Repr, DecidableEq

/-- The per-selector part of the handler: request a fresh sink pad; on link
success record it and point `active-pad` at it, on failure only log
(the pad stays allocated, nothing else changes). -/
def linkToSelector (sel : SelectorState) (ok : Bool) : SelectorState :=
  let pad := sel.requestedPads
  if ok then
    { requestedPads := pad + 1
      linkedPads := sel.linkedPads ++ [pad]
      activePad := some pad }
  else
    { sel with requestedPads := pad + 1 }

/-- The pad-added handler of `switch_source` (lib.rs lines 298-321) acting on
the (video selector, audio selector) pair: streams whose type starts with
`"video/"` go to the video selector, else those starting with `"audio/"` go
to the audio selector, anything else is ignored. -/
def handlePadAdded (sels : SelectorState × SelectorState) (e : PadEvent) :
    SelectorState × SelectorState :=
  if strStartsWith e.mediaType "video/" then
    (linkToSelector sels.1 e.linkOk, sels.2)
  else if strStartsWith e.mediaType "audio/" then
    (sels.1, linkToSelector sels.2 e.linkOk)
  else
    sels

/-- All pad-added callbacks fired by one source, in discovery order. -/
def handleAllPads (events : List PadEvent) : SelectorState × SelectorState :=
  events.foldl handlePadAdded (freshSelector, freshSelector)

/-! ### Source switching and asynchronous teardown as traces -/

/-- `source_elem_{id}` — the name `switch_source` gives a source element. -/
def sourceElemName (item : PlaylistItem) : String :=
  "source_elem_" ++ toString item.id

/-- One selector node seen from the teardown closure: its element name and
its sink pads, each with the name of the parent element of its peer pad
(`none` when unlinked). -/
structure SelectorPads where
  name : String
  pads : List (Nat × Option String)
deriving Repr, DecidableEq

/-- An observable action of `switch_source` and of the teardown closure it
schedules. -/
inductive PlayoutEvent where
  | addToPipeline (elem : String)
  | installPadHandler (elem : String)
  | scheduleTeardown (elem : String)
  | syncStateWithParent (elem : String)
  | setStateNull (elem : String)
  | releaseSelectorPad (selector : String) (pad : Nat)
  | removeFromPipeline (elem : String)
deriving Repr, DecidableEq

/-- The `release_pads` closure run for one selector during teardown
(lib.rs lines 356-365): release exactly the sink pads whose peer's parent
is the old source element. -/
def releaseSteps (sel : SelectorPads) (old : String) : List PlayoutEvent :=
  (sel.pads.filter (fun p => p.2 == some old)).map
    (fun p => .releaseSelectorPad sel.name p.1)

/-- The body of the `call_async` teardown closure (lib.rs lines 350-370), in
source order: `set_state(Null)` on the old element, then release the video
selector's pads peered to it, then the audio selector's, then remove the old
element from the pipeline. -/
def teardownRun (vs as : SelectorPads) (old : String) : List PlayoutEvent :=
  .setStateNull old :: (releaseSteps vs old ++ releaseSteps as old)
    ++ [.removeFromPipeline old]

/-- The synchronous action trace of `switch_source` (lib.rs lines 276-376):
build and add the new source, install its pad-added handler, schedule (not
run) teardown of the old source when one was handed in, then sync the new
source's state with the pipeline. -/
def switchSourceSync (item : PlaylistItem) (oldSource : Option String) :
    List PlayoutEvent :=
  [.addToPipeline (sourceElemName item), .installPadHandler (sourceElemName item)]
    ++ (match oldSource with
        | some old => [.scheduleTeardown old]
        | none => [])
    ++ [.syncStateWithParent (sourceElemName item)]

/-- Whether a `PlayoutEvent` is a teardown step (a state transition to Null,
a selector-pad release, or a removal from the pipeline). -/
def PlayoutEvent.isTeardownStep : PlayoutEvent → Bool
  | .setStateNull _ => true
  | .releaseSelectorPad _ _ => true
  | .removeFromPipeline _ => true
  | _ => false

/-! ## Helper lemmas -/

theorem insertIdx_perm_cons {α : Type} (a : α) :
    ∀ (n : Nat) (l : List α), n ≤ l.length → (List.insertIdx n a l).Perm (a :: l)
  | 0, _, _ => List.Perm.refl _
  | n + 1, [], h => absurd h (by simp)
  | n + 1, x :: xs, h => by
      simp only [List.insertIdx_succ_cons]
      exact ((insertIdx_perm_cons a n xs (by simpa using h)).cons x).trans
        (List.Perm.swap a x xs)

theorem getD_cons_eraseIdx_perm {α : Type} [Inhabited α] :
    ∀ (l : List α) (i : Nat), i < l.length →
      (l.getD i default :: l.eraseIdx i).Perm l
  | [], _, h => absurd h (by simp)
  | _ :: _, 0, _ => List.Perm.refl _
  | x :: xs, i + 1, h => by
      simp only [List.eraseIdx_cons_succ, List.getD_cons_succ]
      exact (List.Perm.swap x (xs.getD i default) (xs.eraseIdx i)).trans
        ((getD_cons_eraseIdx_perm xs i (by simpa using h)).cons x)

theorem filter_insertIdx {α : Type} (p : α → Bool) (a : α) (ha : p a = false) :
    ∀ (n : Nat) (l : List α), n ≤ l.length →
      (List.insertIdx n a l).filter p = l.filter p
  | 0, l, _ => by simp [List.filter_cons, ha]
  | n + 1, [], h => absurd h (by simp)
  | n + 1, x :: xs, h => by
      simp only [List.insertIdx_succ_cons, List.filter_cons]
      rw [filter_insertIdx p a ha n xs (by simpa using h)]

theorem filter_eraseIdx {α : Type} [Inhabited α] (p : α → Bool) :
    ∀ (l : List α) (i : Nat), i < l.length → p (l.getD i default) = false →
      (l.eraseIdx i).filter p = l.filter p
  | [], _, h, _ => absurd h (by simp)
  | x :: xs, 0, _, hp => by
      simp only [List.getD_cons_zero] at hp
      simp [List.filter_cons, hp]
  | x :: xs, i + 1, h, hp => by
      simp only [List.getD_cons_succ] at hp
      simp only [List.eraseIdx_cons_succ, List.filter_cons]
      rw [filter_eraseIdx p xs i (by simpa using h) hp]

theorem findIdx_id_of_nodup (l : List PlaylistItem)
    (hnd : (l.map PlaylistItem.id).Nodup) (i : Nat) (hi : i < l.length) :
    l.findIdx? (fun item => item.id == (l.getD i default).id) = some i := by
  rw [List.findIdx?_eq_some_iff_getElem]
  refine ⟨hi, by simp [List.getElem?_eq_getElem hi], ?_⟩
  intro j hj
  have hjl : j < l.length := Nat.lt_trans hj hi
  have hne : (l.get ⟨j, hjl⟩).id ≠ (l.get ⟨i, hi⟩).id := by
    intro hEq
    have hmi : i < (l.map PlaylistItem.id).length := by simpa using hi
    have hmj : j < (l.map PlaylistItem.id).length := by simpa using hjl
    have : j = i :=
      (@List.Nodup.getElem_inj_iff _ _ hnd j hmj i hmi).mp (by simpa using hEq)
    omega
  simpa [List.getElem?_eq_getElem hi] using hne

theorem play_next_preserves_playlist (f : PlaylistItem → Bool)
    (s : StreamerState) :
    (play_next f s).1.playlist = s.playlist
      ∧ (play_next f s).1.pipelineRunning = s.pipelineRunning := by
  unfold play_next
  split
  · exact ⟨rfl, rfl⟩
  · split
    · exact ⟨rfl, rfl⟩
    · exact ⟨rfl, rfl⟩

theorem advanceIter_preserves_playlist (s : StreamerState) (k : Nat) :
    (advanceIter s k).playlist = s.playlist
      ∧ (advanceIter s k).pipelineRunning = s.pipelineRunning := by
  induction k with
  | zero => exact ⟨rfl, rfl⟩
  | succ k ih =>
      have h := play_next_preserves_playlist (fun _ => true) (advanceIter s k)
      exact ⟨h.1.trans ih.1, h.2.trans ih.2⟩

/-! ## Claim theorems -/

/-- C6: `stop` is idempotent and safe when not running: for every streamer
state, `stop` returns `Ok`, leaves the playlist unchanged, clears the
currently-playing id, and running `stop` again on the result is a no-op that
also returns `Ok`. -/
theorem stop_idempotent_spec (s : StreamerState) :
    ∃ s', stop s = Except.ok s'
      ∧ s'.playlist = s.playlist
      ∧ s'.playingId = none
      ∧ stop s' = Except.ok s' := by
  exact ⟨{ s with pipelineRunning := false, playingId := none },
    rfl, rfl, rfl, rfl⟩

/-- C10: the playlist mutators `add_item`, `remove_item` and `move_item`
never touch the currently-playing id; in particular removing the currently
playing id keeps `get_currently_playing_id` returning that now-absent id. -/
theorem mutators_preserve_playing_id (c : Nat) (s : StreamerState)
    (uri : String) (id n : Nat) :
    (add_item c s uri).2.playingId = s.playingId
    ∧ (remove_item s id).playingId = s.playingId
    ∧ (move_item s id n).1.playingId = s.playingId
    ∧ (get_currently_playing_id s = some id →
        get_currently_playing_id (remove_item s id) = some id
          ∧ ∀ x ∈ (remove_item s id).playlist, x.id ≠ id) := by
  refine ⟨rfl, rfl, ?_, ?_⟩
  · unfold move_item
    cases move_item_list s.playlist id n <;> rfl
  · intro h
    refine ⟨h, ?_⟩
    intro x hx
    have := (List.mem_filter.mp hx).2
    simpa using this

/-- C10 witness: removing the playing item's id from a concrete streamer
leaves the currently-playing id pointing at the removed id. -/
theorem mutators_preserve_playing_id_witness :
    get_currently_playing_id
        (remove_item
          { pipelineRunning := false
            playlist := [{ id := 1, uri := "a" }]
            playingId := some 1 } 1)
      = some 1 :=
  ((mutators_preserve_playing_id 2
      { pipelineRunning := false
        playlist := [{ id := 1, uri := "a" }]
        playingId := some 1 } "u" 1 0).2.2.2 rfl).1

/-- C4: `play_next` fails with the empty-playlist error when the snapshot is
empty, and the currently-playing id is updated to the chosen item's id
exactly when the source attachment succeeds: on any failure the state (in
particular the playing id) is unchanged. -/
theorem play_next_update_spec (f : PlaylistItem → Bool) (s : StreamerState) :
    (s.playlist = [] → play_next f s = (s, some .emptyPlaylist))
    ∧ (∀ s', play_next f s = (s', none) →
        f (s.playlist.getD (nextIndex s.playlist s.playingId) default) = true
        ∧ s'.playingId
            = some (s.playlist.getD (nextIndex s.playlist s.playingId)
                default).id
        ∧ s'.playlist = s.playlist)
    ∧ (∀ s' e, play_next f s = (s', some e) → s' = s) := by
  refine ⟨?_, ?_, ?_⟩
  · intro hnil
    unfold play_next
    simp [hnil]
  · intro s' h
    unfold play_next at h
    split at h
    · exact absurd (congrArg Prod.snd h) (by simp)
    · split at h
      next hf =>
        have h1 := congrArg Prod.fst h
        simp only at h1
        exact ⟨hf, by rw [← h1], by rw [← h1]⟩
      next hf =>
        exact absurd (congrArg Prod.snd h) (by simp)
  · intro s' e h
    unfold play_next at h
    split at h
    · exact (congrArg Prod.fst h).symm
    · split at h
      · exact absurd (congrArg Prod.snd h) (by simp)
      · exact (congrArg Prod.fst h).symm

/-- C4 witness: on the fresh streamer (empty playlist) `play_next` fails
with the empty-playlist error and leaves the state unchanged. -/
theorem play_next_update_spec_witness :
    play_next (fun _ => true) freshStreamer
      = (freshStreamer, some .emptyPlaylist) :=
  (play_next_update_spec (fun _ => true) freshStreamer).1 rfl

/-- C3: `move_item` fails with `invalidIndex` whenever the target index is
out of range (checked first, so it applies even when the id is absent),
fails with `itemNotFound` when the index is in range but the id is absent,
leaves the playlist unchanged in both failure cases, and on success the
item found at the id's position reappears at the target index with the
relative order of all other items preserved. -/
theorem move_item_spec (s : StreamerState) (id n : Nat) :
    (n ≥ s.playlist.length → move_item s id n = (s, some .invalidIndex))
    ∧ (n < s.playlist.length → (∀ x ∈ s.playlist, x.id ≠ id) →
        move_item s id n = (s, some .itemNotFound))
    ∧ (∀ i, n < s.playlist.length →
        s.playlist.findIdx? (fun x => x.id == id) = some i →
        ∃ l', move_item s id n = ({ s with playlist := l' }, none)
          ∧ l'.length = s.playlist.length
          ∧ l'.getD n default = s.playlist.getD i default
          ∧ l'.filter (fun x => x.id != id)
              = s.playlist.filter (fun x => x.id != id)) := by
  refine ⟨?_, ?_, ?_⟩
  · intro hge
    simp [move_item, move_item_list, hge]
  · intro hlt habs
    have hf : s.playlist.findIdx? (fun x => x.id == id) = none :=
      List.findIdx?_eq_none_iff.mpr (fun x hx => by simpa using habs x hx)
    simp [move_item, move_item_list, not_le.mpr hlt, hf]
  · intro i hlt hf
    have hi : i < s.playlist.length :=
      (List.findIdx?_eq_some_iff_findIdx_eq.mp hf).1
    have hmErase : (s.playlist.eraseIdx i).length + 1 = s.playlist.length :=
      List.length_eraseIdx_add_one hi
    have hnle : n ≤ (s.playlist.eraseIdx i).length := by omega
    have hpfalse : ((s.playlist.getD i default).id != id) = false := by
      obtain ⟨h1, h2, -⟩ := List.findIdx?_eq_some_iff_getElem.mp hf
      have hgid : (s.playlist[i]?.getD default).id = id := by
        rw [List.getElem?_eq_getElem hi]
        simpa using h2
      simp [hgid]
    refine ⟨List.insertIdx n (s.playlist.getD i default) (s.playlist.eraseIdx i),
      ?_, ?_, ?_, ?_⟩
    · simp [move_item, move_item_list, not_le.mpr hlt, hf]
    · rw [List.length_insertIdx _ _ hnle]
      omega
    · have hlt' : n < (List.insertIdx n (s.playlist.getD i default)
          (s.playlist.eraseIdx i)).length := by
        rw [List.length_insertIdx _ _ hnle]
        omega
      rw [List.getD_eq_getElem _ _ hlt']
      exact List.getElem_insertIdx_self _ _ _ hnle
    · rw [filter_insertIdx (fun x => x.id != id) (s.playlist.getD i default)
          hpfalse n (s.playlist.eraseIdx i) hnle,
        filter_eraseIdx (fun x => x.id != id) s.playlist i hi hpfalse]

/-- C3 witness: on a concrete two-item playlist, moving any id to index 5
fails with `invalidIndex` and leaves the streamer unchanged. -/
theorem move_item_spec_witness :
    move_item
        { pipelineRunning := false
          playlist := [{ id := 1, uri := "a" }, { id := 2, uri := "b" }]
          playingId := none } 9 5
      = ({ pipelineRunning := false
           playlist := [{ id := 1, uri := "a" }, { id := 2, uri := "b" }]
           playingId := none }, some .invalidIndex) :=
  (move_item_spec
      { pipelineRunning := false
        playlist := [{ id := 1, uri := "a" }, { id := 2, uri := "b" }]
        playingId := none } 9 5).1 (by decide)

/-- C7 counterexample: the network-publish stage built from lib.rs for the
default settings is NOT given any bounded lateness tolerance — no
`max-lateness` is configured on the sink — so the claimed conjunction
(target URL, non-blocking sync, bounded lateness tolerance) fails. -/
theorem sink_lateness_counterexample :
    ¬ ((create_processing_bin "rtmp://example/live"
            EncodingSettings.defaultSettings).sink.location
          = "rtmp://example/live"
        ∧ (create_processing_bin "rtmp://example/live"
            EncodingSettings.defaultSettings).sink.sync = false
        ∧ (create_processing_bin "rtmp://example/live"
            EncodingSettings.defaultSettings).sink.qos = true
        ∧ ((create_processing_bin "rtmp://example/live"
            EncodingSettings.defaultSettings).sink.maxLateness).isSome
          = true) := by
  decide

/-- C7 amended: for every settings value (scaling on or off) the publish
sink is configured with the target URL, non-blocking sync (`sync = false`)
and QoS enabled, but no lateness bound (`max-lateness` is never set). -/
theorem sink_config_spec (rtmpUrl : String) (settings : EncodingSettings) :
    (create_processing_bin rtmpUrl settings).sink
      = { location := rtmpUrl, sync := false, qos := true,
          maxLateness := none } := by
  unfold create_processing_bin
  by_cases h : settings.scale_enabled <;> simp [h]

/-- C5 counterexample: the id counter is the process-global `static NEXT_ID`,
so the ids a second fresh `Streamer` assigns depend on the first instance's
operations: with an interleaved `add_item` on the first instance the second
instance's item gets id 2, without it the very same call yields id 1. -/
theorem shared_id_space_counterexample :
    (addItemSnd (addItemFst freshPair "a") "b").s2.playlist.map PlaylistItem.id
      ≠ (addItemSnd freshPair "b").s2.playlist.map PlaylistItem.id := by
  decide

/-- C5 amended: because the counter is shared process-wide, ids assigned
across any interleaving of `add_item` calls on the two instances are
jointly unique — the two instances draw from one id space and never repeat
each other's ids. -/
theorem shared_counter_cross_instance_unique (ops : List (Bool × String)) :
    (pairIds (runPairAdds ops)).Nodup := by
  have H : ∀ (ops : List (Bool × String)) (w : TwoStreamers),
      (pairIds w).Nodup → (∀ i ∈ pairIds w, i < w.nextId) →
      (pairIds (ops.foldl pairStep w)).Nodup
        ∧ ∀ i ∈ pairIds (ops.foldl pairStep w),
            i < (ops.foldl pairStep w).nextId := by
    intro ops
    induction ops with
    | nil => intro w h1 h2; exact ⟨h1, h2⟩
    | cons op ops ih =>
        intro w h1 h2
        simp only [List.foldl_cons]
        have hnd : (w.nextId :: pairIds w).Nodup :=
          List.nodup_cons.mpr ⟨fun hm => absurd (h2 _ hm) (by omega), h1⟩
        by_cases hb : op.1 = true
        · refine ih (pairStep w op) ?_ ?_
          · have hperm : (pairIds (pairStep w op)).Perm (w.nextId :: pairIds w) := by
              simp [pairStep, pairIds, addItemFst, add_item, hb]
            exact hperm.symm.nodup hnd
          · intro i hm
            have hm' : i ∈ w.nextId :: pairIds w := by
              have hperm : (pairIds (pairStep w op)).Perm (w.nextId :: pairIds w) := by
                simp [pairStep, pairIds, addItemFst, add_item, hb]
              exact hperm.mem_iff.mp hm
            have hc : (pairStep w op).nextId = w.nextId + 1 := by
              simp [pairStep, addItemFst, add_item, hb]
            rw [hc]
            rcases List.mem_cons.mp hm' with hm'' | hm''
            · omega
            · exact Nat.lt_succ_of_lt (h2 i hm'')
        · refine ih (pairStep w op) ?_ ?_
          · have hperm : (pairIds (pairStep w op)).Perm (w.nextId :: pairIds w) := by
              have hp1 := (List.perm_append_singleton w.nextId
                  (w.s2.playlist.map PlaylistItem.id)).append_left
                (w.s1.playlist.map PlaylistItem.id)
              have hp2 := hp1.trans List.perm_middle
              simpa [pairStep, pairIds, addItemSnd, add_item, hb] using hp2
            exact hperm.symm.nodup hnd
          · intro i hm
            have hm' : i ∈ w.nextId :: pairIds w := by
              have hperm : (pairIds (pairStep w op)).Perm (w.nextId :: pairIds w) := by
                have hp1 := (List.perm_append_singleton w.nextId
                    (w.s2.playlist.map PlaylistItem.id)).append_left
                  (w.s1.playlist.map PlaylistItem.id)
                have hp2 := hp1.trans List.perm_middle
                simpa [pairStep, pairIds, addItemSnd, add_item, hb] using hp2
              exact hperm.mem_iff.mp hm
            have hc : (pairStep w op).nextId = w.nextId + 1 := by
              simp [pairStep, addItemSnd, add_item, hb]
            rw [hc]
            rcases List.mem_cons.mp hm' with hm'' | hm''
            · omega
            · exact Nat.lt_succ_of_lt (h2 i hm'')
  exact (H ops freshPair (by simp [pairIds, freshPair, freshStreamer])
    (by simp [pairIds, freshPair, freshStreamer])).1

theorem move_item_playlist_perm (s : StreamerState) (id n : Nat) :
    ((move_item s id n).1.playlist).Perm s.playlist := by
  by_cases hge : n ≥ s.playlist.length
  · simp [move_item, move_item_list, hge]
  · cases hf : s.playlist.findIdx? (fun item => item.id == id) with
    | none => simp [move_item, move_item_list, hge, hf]
    | some i =>
        have hi : i < s.playlist.length :=
          (List.findIdx?_eq_some_iff_findIdx_eq.mp hf).1
        have hmErase : (s.playlist.eraseIdx i).length + 1 = s.playlist.length :=
          List.length_eraseIdx_add_one hi
        have hres : (move_item s id n).1.playlist
            = List.insertIdx n (s.playlist.getD i default)
                (s.playlist.eraseIdx i) := by
          simp [move_item, move_item_list, hge, hf]
        rw [hres]
        exact (insertIdx_perm_cons (s.playlist.getD i default) n
            (s.playlist.eraseIdx i) (by omega)).trans
          (getD_cons_eraseIdx_perm s.playlist i hi)

theorem applyOp_invariant (w : Nat × StreamerState) (op : PlaylistOp)
    (h1 : (w.2.playlist.map PlaylistItem.id).Nodup)
    (h2 : ∀ x ∈ w.2.playlist, x.id < w.1) :
    ((applyOp w op).2.playlist.map PlaylistItem.id).Nodup
      ∧ ∀ x ∈ (applyOp w op).2.playlist, x.id < (applyOp w op).1 := by
  cases op with
  | add uri =>
      constructor
      · have hfresh : w.1 ∉ w.2.playlist.map PlaylistItem.id := by
          intro hm
          obtain ⟨x, hx, hxid⟩ := List.mem_map.mp hm
          exact absurd (h2 x hx) (by omega)
        have hnd : (w.1 :: w.2.playlist.map PlaylistItem.id).Nodup :=
          List.nodup_cons.mpr ⟨hfresh, h1⟩
        have hperm := List.perm_append_singleton w.1
          (w.2.playlist.map PlaylistItem.id)
        have := hperm.symm.nodup hnd
        simpa [applyOp, add_item] using this
      · intro x hx
        simp only [applyOp, add_item, List.mem_append, List.mem_singleton] at hx
        rcases hx with hx | hx
        · exact Nat.lt_succ_of_lt (h2 x hx)
        · simp [hx, applyOp, add_item]
  | remove id =>
      constructor
      · have hsub : ((w.2.playlist.filter (fun x => x.id != id)).map
            PlaylistItem.id).Sublist (w.2.playlist.map PlaylistItem.id) :=
          (List.filter_sublist w.2.playlist).map PlaylistItem.id
        exact hsub.nodup h1
      · intro x hx
        simp only [applyOp, remove_item, List.mem_filter] at hx
        exact h2 x hx.1
  | move id n =>
      have hp := move_item_playlist_perm w.2 id n
      constructor
      · exact ((hp.map PlaylistItem.id).nodup_iff).mpr h1
      · intro x hx
        exact h2 x (hp.mem_iff.mp hx)

/-- C2: over every sequence of `add_item` / `remove_item` / `move_item`
from a fresh process, the snapshot's ids are pairwise distinct and all
below the global counter, and one further `add_item` always succeeds,
appending at the end an item carrying the counter's value as its id (so the
assigned id is strictly greater than every id in the snapshot, hence
monotonically increasing and never reused) and bumping the counter. -/
theorem playlist_invariant_spec (ops : List PlaylistOp) (uri : String) :
    ((runOps ops).2.playlist.map PlaylistItem.id).Nodup
    ∧ (∀ x ∈ (runOps ops).2.playlist, x.id < (runOps ops).1)
    ∧ runOps (ops ++ [.add uri])
        = ((runOps ops).1 + 1,
            { (runOps ops).2 with
                playlist := (runOps ops).2.playlist
                  ++ [{ id := (runOps ops).1, uri := uri }] }) := by
  have H : ∀ (ops : List PlaylistOp) (w : Nat × StreamerState),
      (w.2.playlist.map PlaylistItem.id).Nodup →
      (∀ x ∈ w.2.playlist, x.id < w.1) →
      ((ops.foldl applyOp w).2.playlist.map PlaylistItem.id).Nodup
        ∧ ∀ x ∈ (ops.foldl applyOp w).2.playlist, x.id < (ops.foldl applyOp w).1 := by
    intro ops
    induction ops with
    | nil => intro w h1 h2; exact ⟨h1, h2⟩
    | cons op ops ih =>
        intro w h1 h2
        simp only [List.foldl_cons]
        have h := applyOp_invariant w op h1 h2
        exact ih _ h.1 h.2
  have hinv := H ops (NEXT_ID_INIT, freshStreamer)
    (by simp [freshStreamer]) (by simp [freshStreamer])
  refine ⟨hinv.1, hinv.2, ?_⟩
  show (ops ++ [PlaylistOp.add uri]).foldl applyOp (NEXT_ID_INIT, freshStreamer) = _
  rw [List.foldl_append]
  rfl

/-- C2 witness: after two adds and a remove on a fresh process, the item
with id 1 in the snapshot is strictly below the counter. -/
theorem playlist_invariant_spec_witness :
    ({ id := 2, uri := "b" } : PlaylistItem)
        ∈ (runOps [.add "a", .add "b", .remove 1]).2.playlist
      ∧ (2 : Nat) < (runOps [.add "a", .add "b", .remove 1]).1 :=
  ⟨by decide,
    (playlist_invariant_spec [.add "a", .add "b", .remove 1] "c").2.1
      { id := 2, uri := "b" } (by decide)⟩

theorem nextIndex_found (l : List PlaylistItem) (id : Nat) (i : Nat)
    (hf : l.findIdx? (fun item => item.id == id) = some i) :
    nextIndex l (some id) = (i + 1) % l.length := by
  simp [nextIndex, hf]

theorem advance_sequence (l : List PlaylistItem) (r : Bool) (hne : l ≠ [])
    (hnd : (l.map PlaylistItem.id).Nodup) (k : Nat) :
    (advanceIter { pipelineRunning := r, playlist := l, playingId := none }
        (k + 1)).playingId
      = some ((l.getD (k % l.length) default).id) := by
  have hlen : 0 < l.length := List.length_pos.mpr hne
  induction k with
  | zero =>
      show (play_next (fun _ => true)
          (advanceIter { pipelineRunning := r, playlist := l, playingId := none } 0)).1.playingId = _
      simp [advanceIter, play_next, nextIndex, List.isEmpty_iff, hne,
        Nat.zero_mod]
  | succ k ih =>
      have hpl := advanceIter_preserves_playlist
        { pipelineRunning := r, playlist := l, playingId := none } (k + 1)
      have hmod : k % l.length < l.length := Nat.mod_lt _ hlen
      have hmodeq : (k % l.length + 1) % l.length = (k + 1) % l.length := by
        conv_rhs => rw [← Nat.mod_add_div k l.length]
        rw [Nat.add_right_comm, Nat.add_mul_mod_self_left]
      have hninx : nextIndex l (advanceIter
          { pipelineRunning := r, playlist := l, playingId := none }
          (k + 1)).playingId = (k + 1) % l.length := by
        rw [ih, nextIndex_found l _ (k % l.length)
          (findIdx_id_of_nodup l hnd (k % l.length) hmod), hmodeq]
      show (play_next (fun _ => true)
          (advanceIter { pipelineRunning := r, playlist := l, playingId := none } (k + 1))).1.playingId = _
      unfold play_next
      rw [hpl.1, hninx]
      simp [List.isEmpty_iff, hne]

/-- C1: round-robin selection — with nothing playing or with a playing id
absent from the snapshot the chosen index is 0; with the playing id found
at position `i` it is `(i + 1) mod length`; consequently advancing `k + 1`
times from idle activates the item at index `k mod length` (so the
`(N+1)`-th advance over an `N`-item playlist wraps to the first item, and a
single-item playlist replays itself). -/
theorem round_robin_spec (l : List PlaylistItem) (r : Bool) (hne : l ≠ [])
    (hnd : (l.map PlaylistItem.id).Nodup) :
    nextIndex l none = 0
    ∧ (∀ id, (∀ x ∈ l, x.id ≠ id) → nextIndex l (some id) = 0)
    ∧ (∀ i, i < l.length →
        nextIndex l (some ((l.getD i default).id)) = (i + 1) % l.length)
    ∧ (∀ k, (advanceIter
          { pipelineRunning := r, playlist := l, playingId := none }
          (k + 1)).playingId
        = some ((l.getD (k % l.length) default).id))
    ∧ (advanceIter { pipelineRunning := r, playlist := l, playingId := none }
          (l.length + 1)).playingId
        = some ((l.getD 0 default).id) := by
  refine ⟨rfl, ?_, ?_, ?_, ?_⟩
  · intro id habs
    have hf : l.findIdx? (fun item => item.id == id) = none :=
      List.findIdx?_eq_none_iff.mpr (fun x hx => by simpa using habs x hx)
    simp [nextIndex, hf]
  · intro i hi
    exact nextIndex_found l _ i (findIdx_id_of_nodup l hnd i hi)
  · exact advance_sequence l r hne hnd
  · have := advance_sequence l r hne hnd l.length
    rwa [Nat.mod_self] at this

/-- C1 witness: on a concrete three-item playlist the fourth advance from
idle wraps around to the first item (id 1). -/
theorem round_robin_spec_witness :
    (advanceIter
        { pipelineRunning := false
          playlist := [{ id := 1, uri := "a" }, { id := 2, uri := "b" },
            { id := 3, uri := "c" }]
          playingId := none } 4).playingId = some 1 :=
  (round_robin_spec
      [{ id := 1, uri := "a" }, { id := 2, uri := "b" },
        { id := 3, uri := "c" }] false (by decide) (by decide)).2.2.2.2

theorem handleAll_components (events : List PadEvent) :
    ∀ sels : SelectorState × SelectorState,
      (events.foldl handlePadAdded sels).1
          = (events.filter (fun ev => strStartsWith ev.mediaType "video/")).foldl
              (fun st ev => linkToSelector st ev.linkOk) sels.1
        ∧ (events.foldl handlePadAdded sels).2
          = (events.filter (fun ev => !strStartsWith ev.mediaType "video/"
              && strStartsWith ev.mediaType "audio/")).foldl
              (fun st ev => linkToSelector st ev.linkOk) sels.2 := by
  induction events with
  | nil => intro sels; exact ⟨rfl, rfl⟩
  | cons e events ih =>
      intro sels
      by_cases hv : strStartsWith e.mediaType "video/"
      · have := ih (linkToSelector sels.1 e.linkOk, sels.2)
        simpa [handlePadAdded, hv, List.filter_cons] using this
      · by_cases ha : strStartsWith e.mediaType "audio/"
        · have := ih (sels.1, linkToSelector sels.2 e.linkOk)
          simpa [handlePadAdded, hv, ha, List.filter_cons] using this
        · have := ih sels
          simpa [handlePadAdded, hv, ha, List.filter_cons] using this

/-- C8 counterexample: when one source exposes two video streams that both
link successfully, the video selector's active pad ends up being the second
(most recent) linked pad, not the first successful link as claimed. -/
theorem active_pad_counterexample :
    ¬ ((handleAllPads [{ mediaType := "video/x-raw", linkOk := true },
          { mediaType := "video/x-h264", linkOk := true }]).1.activePad
        = (handleAllPads [{ mediaType := "video/x-raw", linkOk := true },
            { mediaType := "video/x-h264", linkOk := true }]).1.linkedPads.head?) := by
  decide

/-- C8 amended: the pad-added handler classifies each stream by prefix match
on the stream type, requests a fresh input pad on the matching selector and
links to it; EVERY successful link (not only the first) is marked as that
selector's active input, so the most recent successful link wins; a link
failure only allocates the pad and changes nothing else; and each selector's
final state depends only on the events of its own media kind, so a link
failure for one kind never aborts linking of the other kind. -/
theorem pad_added_spec (sels : SelectorState × SelectorState) (e : PadEvent)
    (events : List PadEvent) :
    (strStartsWith e.mediaType "video/" = true → e.linkOk = true →
        handlePadAdded sels e
          = ({ requestedPads := sels.1.requestedPads + 1
               linkedPads := sels.1.linkedPads ++ [sels.1.requestedPads]
               activePad := some sels.1.requestedPads }, sels.2))
    ∧ (strStartsWith e.mediaType "video/" = true → e.linkOk = false →
        handlePadAdded sels e
          = ({ sels.1 with requestedPads := sels.1.requestedPads + 1 }, sels.2))
    ∧ (strStartsWith e.mediaType "video/" = false →
        strStartsWith e.mediaType "audio/" = true → e.linkOk = true →
        handlePadAdded sels e
          = (sels.1, { requestedPads := sels.2.requestedPads + 1
                       linkedPads := sels.2.linkedPads ++ [sels.2.requestedPads]
                       activePad := some sels.2.requestedPads }))
    ∧ (strStartsWith e.mediaType "video/" = false →
        strStartsWith e.mediaType "audio/" = true → e.linkOk = false →
        handlePadAdded sels e
          = (sels.1, { sels.2 with requestedPads := sels.2.requestedPads + 1 }))
    ∧ (strStartsWith e.mediaType "video/" = false →
        strStartsWith e.mediaType "audio/" = false →
        handlePadAdded sels e = sels)
    ∧ ((handleAllPads events).1
        = (events.filter (fun ev => strStartsWith ev.mediaType "video/")).foldl
            (fun st ev => linkToSelector st ev.linkOk) freshSelector)
    ∧ ((handleAllPads events).2
        = (events.filter (fun ev => !strStartsWith ev.mediaType "video/"
            && strStartsWith ev.mediaType "audio/")).foldl
            (fun st ev => linkToSelector st ev.linkOk) freshSelector) := by
  refine ⟨?_, ?_, ?_, ?_, ?_, ?_, ?_⟩
  · intro hv hl
    simp [handlePadAdded, linkToSelector, hv, hl]
  · intro hv hl
    simp [handlePadAdded, linkToSelector, hv, hl]
  · intro hv ha hl
    simp [handlePadAdded, linkToSelector, hv, ha, hl]
  · intro hv ha hl
    simp [handlePadAdded, linkToSelector, hv, ha, hl]
  · intro hv ha
    simp [handlePadAdded, hv, ha]
  · exact (handleAll_components events (freshSelector, freshSelector)).1
  · exact (handleAll_components events (freshSelector, freshSelector)).2

/-- C8 witness: a concrete successful video pad link on fresh selectors
allocates pad 0, records the link, and marks pad 0 active, leaving the audio
selector untouched. -/
theorem pad_added_spec_witness :
    handlePadAdded (freshSelector, freshSelector)
        { mediaType := "video/x-raw", linkOk := true }
      = ({ requestedPads := 1, linkedPads := [0], activePad := some 0 },
          freshSelector) :=
  (pad_added_spec (freshSelector, freshSelector)
      { mediaType := "video/x-raw", linkOk := true } []).1 (by decide) rfl

/-- C9: teardown of a finished source is only ever scheduled by
`switch_source` — its synchronous trace contains no teardown step, and the
scheduling happens after the new source has been added to the pipeline —
and the scheduled teardown closure performs, in order, the state transition
to Null, then the release of exactly those selector input pads whose peer
belongs to the old source (video selector first, then audio), and finally
the removal of the old source from the pipeline. -/
theorem teardown_schedule_spec (item : PlaylistItem) (old : String)
    (vs as : SelectorPads) :
    (∀ e ∈ switchSourceSync item (some old), e.isTeardownStep = false)
    ∧ (∀ e ∈ switchSourceSync item none, e.isTeardownStep = false)
    ∧ switchSourceSync item (some old)
        = [.addToPipeline (sourceElemName item),
           .installPadHandler (sourceElemName item),
           .scheduleTeardown old,
           .syncStateWithParent (sourceElemName item)]
    ∧ teardownRun vs as old
        = .setStateNull old
            :: (releaseSteps vs old ++ releaseSteps as old)
            ++ [.removeFromPipeline old]
    ∧ (∀ sel : SelectorPads, ∀ e ∈ releaseSteps sel old,
        ∃ pad, e = .releaseSelectorPad sel.name pad ∧ (pad, some old) ∈ sel.pads)
    ∧ (∀ sel : SelectorPads, ∀ pad, (pad, some old) ∈ sel.pads →
        (.releaseSelectorPad sel.name pad : PlayoutEvent)
          ∈ releaseSteps sel old) := by
  refine ⟨?_, ?_, rfl, rfl, ?_, ?_⟩
  · intro e he
    simp only [switchSourceSync, List.cons_append, List.nil_append,
      List.mem_cons, List.not_mem_nil, or_false] at he
    rcases he with h | h | h | h <;> subst h <;> rfl
  · intro e he
    simp only [switchSourceSync, List.cons_append, List.nil_append,
      List.mem_cons, List.not_mem_nil, or_false] at he
    rcases he with h | h | h <;> subst h <;> rfl
  · intro sel e he
    obtain ⟨p, hp, rfl⟩ := List.mem_map.mp he
    obtain ⟨hmem, hcond⟩ := List.mem_filter.mp hp
    have hpeer : p.2 = some old := by simpa using hcond
    refine ⟨p.1, rfl, ?_⟩
    rw [← hpeer]
    exact hmem
  · intro sel pad hmem
    refine List.mem_map.mpr ⟨(pad, some old), ?_, rfl⟩
    exact List.mem_filter.mpr ⟨hmem, by simp⟩

/-- C9 witness: for a concrete selector holding one pad peered to the old
source, the teardown trace releases that pad. -/
theorem teardown_schedule_spec_witness :
    (PlayoutEvent.releaseSelectorPad "video_selector" 0)
      ∈ releaseSteps
          { name := "video_selector", pads := [(0, some "src_old")] }
          "src_old" :=
  (teardown_schedule_spec { id := 1, uri := "u" } "src_old"
      { name := "video_selector", pads := [(0, some "src_old")] }
      { name := "audio_selector", pads := [] }).2.2.2.2.2
    { name := "video_selector", pads := [(0, some "src_old")] } 0 (by decide)

end HayaiPlayout
